import Mathlib

/-!
Verification development for src/rts/Rendering/FeatureDrawer.cpp (Spring RTS
engine feature renderer).  The embedding models float values as rationals,
the per-feature classification of CFeatureQuadDrawer::DrawQuad and
SetDrawAlphaValue as pure functions, the draw-quad spatial grid together
with the lifecycle handlers (RenderFeatureCreated, FeatureMoved,
RenderFeatureDestroyed, Update) as explicit state transformers over a
DrawerState record, and the batched draw submission (DrawOpaqueFeatures,
DrawAlphaFeatures) as functions producing the list of draw actions.
External collaborator calls (Lua material hooks, frustum tests, the decal
and LOD services) are parameters or event logs.
-/

/-- Rational stand-in for float3. -/
structure Vec3 where
  x : ℚ
  y : ℚ
  z : ℚ

/-- Componentwise difference, float3 operator-. -/
def Vec3.sub (a b : Vec3) : Vec3 := ⟨a.x - b.x, a.y - b.y, a.z - b.z⟩

/-- Componentwise sum, float3 operator+. -/
def Vec3.add (a b : Vec3) : Vec3 := ⟨a.x + b.x, a.y + b.y, a.z + b.z⟩

/-- Scalar multiple, float3 operator* with a float. -/
def Vec3.scale (t : ℚ) (a : Vec3) : Vec3 := ⟨t * a.x, t * a.y, t * a.z⟩

/-- Squared length, float3::SqLength. -/
def Vec3.sqLength (a : Vec3) : ℚ := a.x * a.x + a.y * a.y + a.z * a.z

/-- FD_NODRAW_FLAG from the anonymous enum at the top of FeatureDrawer.cpp. -/
def FD_NODRAW_FLAG : Nat := 0

/-- FD_OPAQUE_FLAG. -/
def FD_OPAQUE_FLAG : Nat := 1

/-- FD_ALPHAF_FLAG. -/
def FD_ALPHAF_FLAG : Nat := 2

/-- FD_SHADOW_FLAG. -/
def FD_SHADOW_FLAG : Nat := 3

/-- FD_FARTEX_FLAG. -/
def FD_FARTEX_FLAG : Nat := 4

/-- CCamera::CAMTYPE_SHADOW, the only camera-type constant the embedded code
compares against (CanDrawFeature line 371). -/
def CAMTYPE_SHADOW : Nat := 2

/-- Number of model types below MODELTYPE_OTHER (3DO, S3O, OBJ, ASS). -/
def MODELTYPE_OTHER : Nat := 4

/-- SQUARE_SIZE map constant (world units per map square). -/
def SQUARE_SIZE : ℚ := 8

/-- DRAW_QUAD_SIZE from FeatureDrawer.cpp line 35 (map squares per quad edge). -/
def DRAW_QUAD_SIZE : ℚ := 32

/-- The per-feature state this core reads and writes.  position, speed and
the interpolated draw positions are float3s; drawQuad is the grid index
(-1 unregistered, below -1 permanently excluded); drawFlag holds one of the
FD_*_FLAG values; the remaining fields are the externally owned attributes
CFeature exposes (alphaFade, noDraw, IsInVoid, IsInLosForAllyTeam,
IsInWater, model presence, MDL_TYPE). -/
structure Feature where
  pos : Vec3
  midPos : Vec3
  speed : Vec3
  drawPos : Vec3
  drawMidPos : Vec3
  sqRadius : ℚ
  drawRadius : ℚ
  alphaFade : Bool
  drawAlpha : ℚ
  drawFlag : Nat
  drawQuad : Int
  hasModel : Bool
  drawTypeModel : Bool
  mdlType : Nat
  noDraw : Bool
  inVoid : Bool
  inLos : Bool
  inWater : Bool

/-- A camera: its position and CAMTYPE. -/
structure Camera where
  pos : Vec3
  camType : Nat

/-- Embeds SetDrawAlphaValue (FeatureDrawer.cpp lines 45-91).  The feature's
drawAlpha is always reset to 0 first; a null camera yields false; a
non-fading feature gets alpha 1; otherwise the fade window (sqFadeDistMin,
sqFadeDistMax) is clamped against farLength = sqRadius * unitDrawDistSqr and
the squared camera distance selects full alpha, interpolated alpha, or the
fartex/no-draw result (false).  Returns the updated feature and the bool. -/
def setDrawAlphaValue (f : Feature) (cam : Option Camera)
    (unitDrawDistSqr sqFadeDistMin sqFadeDistMax : ℚ) : Feature × Bool :=
  let f0 := { f with drawAlpha := 0 }
  match cam with
  | none => (f0, false)
  | some c =>
    if f0.alphaFade = false then ({ f0 with drawAlpha := 1 }, true)
    else
      let sqDist := (Vec3.sub f0.pos c.pos).sqLength
      let farLength := f0.sqRadius * unitDrawDistSqr
      if farLength ≤ sqDist then (f0, false)
      else
        let sqFadeDistE := if farLength < sqFadeDistMax then farLength else sqFadeDistMax
        let sqFadeDistB :=
          if farLength < sqFadeDistMax then farLength * (sqFadeDistMin / sqFadeDistMax)
          else sqFadeDistMin
        if sqDist < sqFadeDistB then ({ f0 with drawAlpha := 1 }, true)
        else if sqDist < sqFadeDistE then
          ({ f0 with drawAlpha := 1 - ((sqDist - sqFadeDistB) / (sqFadeDistE - sqFadeDistB)) }, true)
        else (f0, false)

/-- The pass context CFeatureQuadDrawer carries (lines 610-637), together
with the globals its DrawQuad body reads: gu->spectatingFullView, the
unitDrawer draw-distance scale, and the external reflection-visibility
test CUnitDrawer::ObjectVisibleReflection as an abstract predicate. -/
structure QuadDrawerCtx where
  drawReflection : Bool
  drawRefraction : Bool
  drawShadowPass : Bool
  drawFarFeatures : Bool
  sqFadeDistBegin : ℚ
  sqFadeDistEnd : ℚ
  cam : Camera
  unitDrawDistSqr : ℚ
  spectatingFullView : Bool
  reflectionVisible : Vec3 → ℚ → Bool

/-- Embeds the per-feature body of CFeatureQuadDrawer::DrawQuad (lines
650-689): reset drawFlag to FD_NODRAW_FLAG, run the exclusion tests
(noDraw, void, ally-team visibility), mark shadow passes, apply the
refraction and reflection gates, then classify via SetDrawAlphaValue and
the alpha-based flag assignment, falling back to the fartex flag that is
restricted to non-fading features. -/
def classifyFeature (p : QuadDrawerCtx) (f : Feature) : Feature :=
  let f := { f with drawFlag := FD_NODRAW_FLAG }
  if f.noDraw then f
  else if f.inVoid then f
  else if !p.spectatingFullView && !f.inLos then f
  else if p.drawShadowPass then { f with drawFlag := FD_SHADOW_FLAG }
  else if p.drawRefraction && !f.inWater then f
  else if p.drawReflection && !p.reflectionVisible f.drawMidPos f.drawRadius then f
  else
    let r := setDrawAlphaValue f (some p.cam) p.unitDrawDistSqr p.sqFadeDistBegin p.sqFadeDistEnd
    if r.2 then
      { r.1 with drawFlag := r.1.drawFlag
          + FD_OPAQUE_FLAG * (if r.1.drawAlpha = 1 then 1 else 0)
          + FD_ALPHAF_FLAG * (if r.1.drawAlpha < 1 then 1 else 0) }
    else
      { r.1 with drawFlag :=
          FD_FARTEX_FLAG * (if p.drawFarFeatures then 1 else 0) * (if f.alphaFade then 0 else 1) }

/-- C++ int cast of a rational value: truncation toward zero. -/
def ratTrunc (q : ℚ) : Int := q.num.tdiv q.den

/-- Clamp from System/myMath.h. -/
def clampI (v lo hi : Int) : Int := max lo (min v hi)

/-- UpdateDrawQuad's target column, line 214:
Clamp(int(pos.x / SQUARE_SIZE / DRAW_QUAD_SIZE), 0, drawQuadsX - 1). -/
def drawQuadXOf (drawQuadsX : Nat) (px : ℚ) : Int :=
  clampI (ratTrunc (px / SQUARE_SIZE / DRAW_QUAD_SIZE)) 0 ((drawQuadsX : Int) - 1)

/-- UpdateDrawQuad's target row, line 215 (pos.z axis). -/
def drawQuadYOf (drawQuadsY : Nat) (pz : ℚ) : Int :=
  clampI (ratTrunc (pz / SQUARE_SIZE / DRAW_QUAD_SIZE)) 0 ((drawQuadsY : Int) - 1)

/-- The combined target quad index, line 216: newQuadY * drawQuadsX + newQuadX. -/
def targetDrawQuad (drawQuadsX drawQuadsY : Nat) (p : Vec3) : Int :=
  drawQuadYOf drawQuadsY p.z * drawQuadsX + drawQuadXOf drawQuadsX p.x

/-- The drawer state: grid dimensions, the feature objects (indexed by id),
the per-quad per-model-type bins modelRenderers hold, the authoritative
unsortedFeatures list, each quad's last-draw-frame stamp, and event logs of
the external calls this core makes (SetObjectLOD with lod 0, ground-decal
ForceRemoveSolidObject).  flagFrame is a history variable: the frame in
which feature i's drawFlag was last written by a classification visit. -/
structure DrawerState where
  drawQuadsX : Nat
  drawQuadsY : Nat
  features : Nat → Feature
  cells : Nat → Nat → List Nat
  unsorted : List Nat
  lastDrawFrame : Nat → Nat
  flagFrame : Nat → Nat
  lodZeroed : List Nat
  decalRemoved : List Nat

/-- Replace feature i's record. -/
def setFeature (st : DrawerState) (i : Nat) (f : Feature) : DrawerState :=
  { st with features := Function.update st.features i f }

/-- FeatureSetRenderer::DelFeature on the bin at (q0, mt0). -/
def eraseCell (cells : Nat → Nat → List Nat) (q0 mt0 i : Nat) : Nat → Nat → List Nat :=
  fun q mt => if q = q0 ∧ mt = mt0 then (cells q mt).erase i else cells q mt

/-- FeatureSetRenderer::AddFeature on the bin at (q0, mt0). -/
def consCell (cells : Nat → Nat → List Nat) (q0 mt0 i : Nat) : Nat → Nat → List Nat :=
  fun q mt => if q = q0 ∧ mt = mt0 then i :: cells q mt else cells q mt

/-- Embeds CFeatureDrawer::UpdateDrawQuad (lines 207-235): early out for a
permanently excluded feature (drawQuad below -1), no-op when the computed
target quad equals the stored one, otherwise move the feature between the
per-model-type bins (only when it has a model) and store the new quad. -/
def updateDrawQuad (st : DrawerState) (i : Nat) : DrawerState :=
  let f := st.features i
  if f.drawQuad < -1 then st
  else
    let newQ := targetDrawQuad st.drawQuadsX st.drawQuadsY f.pos
    if f.drawQuad = newQ then st
    else
      let st1 :=
        if f.hasModel then
          let st0 :=
            if 0 ≤ f.drawQuad then
              { st with cells := eraseCell st.cells f.drawQuad.toNat f.mdlType i }
            else st
          { st0 with cells := consCell st0.cells newQ.toNat f.mdlType i }
        else st
      setFeature st1 i { f with drawQuad := newQ }

/-- Embeds CFeatureDrawer::RenderFeatureCreated (lines 168-182): reject
non-model draw types, reset drawQuad to -1, reset alpha via the null-camera
SetDrawAlphaValue call, register in the grid, append to unsortedFeatures. -/
def renderFeatureCreated (st : DrawerState) (i : Nat) : DrawerState :=
  if (st.features i).drawTypeModel = false then st
  else
    let st1 := setFeature st i { st.features i with drawQuad := -1 }
    let st2 := setFeature st1 i (setDrawAlphaValue (st1.features i) none 0 (-1) (-1)).1
    let st3 := updateDrawQuad st2 i
    { st3 with unsorted := st3.unsorted ++ [i] }

/-- Embeds CFeatureDrawer::FeatureMoved (lines 202-205), with the position
update the simulation performs before raising the event made explicit. -/
def featureMoved (st : DrawerState) (i : Nat) (newPos : Vec3) : DrawerState :=
  updateDrawQuad (setFeature st i { st.features i with pos := newPos }) i

/-- Embeds CFeatureDrawer::RenderFeatureDestroyed (lines 186-199): erase from
unsortedFeatures when the draw type is model-based, remove from the grid bin
and reset drawQuad to -1 when the feature has a model and is registered, and
log the LuaObjectDrawer::SetObjectLOD(f, LUAOBJ_FEATURE, 0) call.  Note the
handler makes no ground-decal call. -/
def renderFeatureDestroyed (st : DrawerState) (i : Nat) : DrawerState :=
  let f := st.features i
  let st1 := if f.drawTypeModel then { st with unsorted := st.unsorted.erase i } else st
  let st2 :=
    if f.hasModel = true ∧ 0 ≤ f.drawQuad then
      setFeature { st1 with cells := eraseCell st1.cells f.drawQuad.toNat f.mdlType i } i
        { f with drawQuad := -1 }
    else st1
  { st2 with lodZeroed := st2.lodZeroed ++ [i] }

/-- Embeds ~CFeatureDrawer (lines 154-164): groundDecals->
ForceRemoveSolidObject for every feature still in unsortedFeatures, then the
model renderers are cleared. -/
def drawerDtor (st : DrawerState) : DrawerState :=
  { st with decalRemoved := st.decalRemoved ++ st.unsorted,
            cells := fun _ _ => [] }

/-- Embeds CFeatureDrawer::UpdateDrawPos (lines 247-253). -/
def updateDrawPos (t : ℚ) (f : Feature) : Feature :=
  { f with drawPos := Vec3.add f.pos (Vec3.scale t f.speed),
           drawMidPos := Vec3.add f.midPos (Vec3.scale t f.speed) }

/-- The per-feature body of CFeatureDrawer::Update (lines 240-243):
UpdateDrawPos followed by the null-camera SetDrawAlphaValue reset. -/
def updateFeatureFrame (t : ℚ) (f : Feature) : Feature :=
  (setDrawAlphaValue (updateDrawPos t f) none 0 (-1) (-1)).1

/-- Embeds CFeatureDrawer::Update (lines 238-244): iterate
unsortedFeatures, refreshing each feature's draw positions and resetting
its alpha. -/
def updateFeatures (st : DrawerState) (t : ℚ) : DrawerState :=
  st.unsorted.foldl (fun s i => setFeature s i (updateFeatureFrame t (s.features i))) st

/-- One lifecycle event processed by the drawer: creation of a feature not
currently registered (ids are fresh in the engine), a move, or a
destruction. -/
inductive LifecycleStep : DrawerState → DrawerState → Prop where
  | created (st : DrawerState) (i : Nat) (hfresh : (st.features i).drawQuad < 0) :
      LifecycleStep st (renderFeatureCreated st i)
  | moved (st : DrawerState) (i : Nat) (p : Vec3) :
      LifecycleStep st (featureMoved st i p)
  | destroyed (st : DrawerState) (i : Nat) :
      LifecycleStep st (renderFeatureDestroyed st i)

/-- The grid consistency invariant: a feature id sits in bin (q, mt) exactly
when it has a model, is registered (drawQuad nonnegative), q is its stored
drawQuad and mt its model type; every registered feature's stored drawQuad
is the target quad computed from its current position; bins have no
duplicates. -/
structure GridInv (st : DrawerState) : Prop where
  mem_iff : ∀ j q mt, j ∈ st.cells q mt ↔
      ((st.features j).hasModel = true ∧ 0 ≤ (st.features j).drawQuad ∧
        (q : Int) = (st.features j).drawQuad ∧ mt = (st.features j).mdlType)
  quad_target : ∀ j, 0 ≤ (st.features j).drawQuad →
      (st.features j).drawQuad = targetDrawQuad st.drawQuadsX st.drawQuadsY (st.features j).pos
  nodup : ∀ q mt, (st.cells q mt).Nodup

/-- GridInv weakened at one feature: its stored quad may be stale with
respect to its position (the situation right after the simulation moved it
and before UpdateDrawQuad ran). -/
structure PreInv (st : DrawerState) (i : Nat) : Prop where
  mem_iff : ∀ j q mt, j ∈ st.cells q mt ↔
      ((st.features j).hasModel = true ∧ 0 ≤ (st.features j).drawQuad ∧
        (q : Int) = (st.features j).drawQuad ∧ mt = (st.features j).mdlType)
  quad_target : ∀ j, j ≠ i → 0 ≤ (st.features j).drawQuad →
      (st.features j).drawQuad = targetDrawQuad st.drawQuadsX st.drawQuadsY (st.features j).pos
  nodup : ∀ q mt, (st.cells q mt).Nodup

/-- Whether feature i sits in one of quad q's per-model-type bins. -/
def inQuadB (st : DrawerState) (q i : Nat) : Bool :=
  (List.range MODELTYPE_OTHER).any fun mt => (st.cells q mt).contains i

/-- Embeds one CFeatureQuadDrawer::DrawQuad visit of cell q (lines 639-692):
the cell's last-draw-frame stamp is set to the current frame and every
feature in the cell's bins is reclassified.  flagFrame records, as a history
variable, that those features' drawFlag was written this frame. -/
def drawQuadVisit (p : QuadDrawerCtx) (frame : Nat) (st : DrawerState) (q : Nat) : DrawerState :=
  { st with
    lastDrawFrame := Function.update st.lastDrawFrame q frame,
    features := fun i => if inQuadB st q i then classifyFeature p (st.features i) else st.features i,
    flagFrame := fun i => if inQuadB st q i then frame else st.flagFrame i }

/-- A classification visit performed during the current frame, by any pass
(GetVisibleFeatures delegates cell enumeration to the grid traversal
service, so the visited quad and the pass context are arbitrary). -/
inductive VisitStep (frame : Nat) : DrawerState → DrawerState → Prop where
  | visit (st : DrawerState) (p : QuadDrawerCtx) (q : Nat) :
      VisitStep frame st (drawQuadVisit p frame st q)

/-- Embeds CFeatureDrawer::CanDrawFeature (lines 359-381): the secondary
per-object gate applied at submission time.  The active camera's frustum
test InView is an external predicate of the feature. -/
def canDrawFeature (f : Feature) (spectFullView : Bool) (cam : Camera)
    (unitDrawDistSqr featureDrawDistance : ℚ) (inView : Vec3 → ℚ → Bool) : Bool :=
  if f.noDraw then false
  else if f.inVoid then false
  else if !f.inLos && !spectFullView then false
  else if f.alphaFade = true ∧ ¬cam.camType = CAMTYPE_SHADOW then
    if min (f.sqRadius * unitDrawDistSqr) (featureDrawDistance * featureDrawDistance)
        ≤ (Vec3.sub f.pos cam.pos).sqLength then false
    else inView f.drawMidPos f.drawRadius
  else inView f.drawMidPos f.drawRadius

/-- A draw action the batcher performs for a feature: enqueue it on the
far-texture handler, or submit its geometry. -/
inductive DrawAction where
  | queueFar (i : Nat)
  | drawGeom (i : Nat)
deriving DecidableEq

/-- Embeds CFeatureDrawer::DrawOpaqueFeatures (lines 320-357) as the list of
draw actions it performs for one model type: cells whose last-draw frame is
older than the current frame are skipped; NoDraw and AlphaFading features
are skipped, fartex features are queued on the far-texture handler, and the
rest are submitted as geometry after the CanDrawFeature re-check and the
LuaObjectDrawer material hook (luaAccepts; a feature the hook claims is not
submitted here). -/
def drawOpaqueFeatures (st : DrawerState) (frame : Nat) (modelType : Nat)
    (spectFullView : Bool) (cam : Camera) (unitDrawDistSqr featureDrawDistance : ℚ)
    (inView : Vec3 → ℚ → Bool) (luaAccepts : Nat → Bool) : List DrawAction :=
  (List.range (st.drawQuadsX * st.drawQuadsY)).flatMap fun q =>
    if st.lastDrawFrame q < frame then []
    else
      (st.cells q modelType).flatMap fun i =>
        let f := st.features i
        if f.drawFlag = FD_NODRAW_FLAG then []
        else if f.drawFlag = FD_ALPHAF_FLAG then []
        else if f.drawFlag = FD_FARTEX_FLAG then [DrawAction.queueFar i]
        else if canDrawFeature f spectFullView cam unitDrawDistSqr featureDrawDistance inView
            = false then []
        else if luaAccepts i then []
        else [DrawAction.drawGeom i]

/-- Embeds CFeatureDrawer::DrawAlphaFeatures (lines 513-550) as the list of
draw actions for one model type: stale cells are skipped and only features
whose drawFlag is none of NoDraw, Opaque, Shadow, Fartex survive the switch,
then the CanDrawFeature re-check and the Lua alpha-material hook. -/
def drawAlphaFeatures (st : DrawerState) (frame : Nat) (modelType : Nat)
    (spectFullView : Bool) (cam : Camera) (unitDrawDistSqr featureDrawDistance : ℚ)
    (inView : Vec3 → ℚ → Bool) (luaAccepts : Nat → Bool) : List DrawAction :=
  (List.range (st.drawQuadsX * st.drawQuadsY)).flatMap fun q =>
    if st.lastDrawFrame q < frame then []
    else
      (st.cells q modelType).flatMap fun i =>
        let f := st.features i
        if f.drawFlag = FD_NODRAW_FLAG then []
        else if f.drawFlag = FD_OPAQUE_FLAG then []
        else if f.drawFlag = FD_SHADOW_FLAG then []
        else if f.drawFlag = FD_FARTEX_FLAG then []
        else if canDrawFeature f spectFullView cam unitDrawDistSqr featureDrawDistance inView
            = false then []
        else if luaAccepts i then []
        else [DrawAction.drawGeom i]

/-- The feature id a draw action refers to. -/
def DrawAction.featureId : DrawAction → Nat
  | .queueFar i => i
  | .drawGeom i => i

/-- A concrete fade-capable feature (squared radius 49) used by the
counterexamples and witnesses below. -/
def fadeFeature : Feature :=
  { pos := ⟨0, 0, 0⟩, midPos := ⟨0, 0, 0⟩, speed := ⟨0, 0, 0⟩,
    drawPos := ⟨0, 0, 0⟩, drawMidPos := ⟨0, 0, 0⟩,
    sqRadius := 49, drawRadius := 1, alphaFade := true, drawAlpha := 0,
    drawFlag := 0, drawQuad := -1, hasModel := true, drawTypeModel := true,
    mdlType := 0, noDraw := false, inVoid := false, inLos := true, inWater := true }

/-- The same feature with fading disabled. -/
def solidFeature : Feature := { fadeFeature with alphaFade := false }

/-- A concrete main-pass context: fade window 1..49, draw-distance scale 2
(so farLength = 98 for fadeFeature), camera at distance 1. -/
def fadeCtx : QuadDrawerCtx :=
  { drawReflection := false, drawRefraction := false, drawShadowPass := false,
    drawFarFeatures := true, sqFadeDistBegin := 1, sqFadeDistEnd := 49,
    cam := ⟨⟨1, 0, 0⟩, 0⟩, unitDrawDistSqr := 2, spectatingFullView := false,
    reflectionVisible := fun _ _ => true }

/-- fadeCtx with the camera at squared distance 25, midway through the window. -/
def midCtx : QuadDrawerCtx := { fadeCtx with cam := ⟨⟨5, 0, 0⟩, 0⟩ }

/-- fadeCtx with the camera at squared distance 49, the window's end. -/
def endCtx : QuadDrawerCtx := { fadeCtx with cam := ⟨⟨7, 0, 0⟩, 0⟩ }

/-- fadeCtx with the camera at squared distance 100, beyond farLength = 98. -/
def farCtx : QuadDrawerCtx := { fadeCtx with cam := ⟨⟨10, 0, 0⟩, 0⟩ }

/-- fadeCtx as a shadow pass. -/
def shadowCtx : QuadDrawerCtx := { fadeCtx with drawShadowPass := true }

/-- An empty 64x64 drawer state. -/
def initDrawerState : DrawerState :=
  { drawQuadsX := 64, drawQuadsY := 64, features := fun _ => fadeFeature,
    cells := fun _ _ => [], unsorted := [], lastDrawFrame := fun _ => 0,
    flagFrame := fun _ => 0, lodZeroed := [], decalRemoved := [] }

/-- A modelled feature registered in quad 194 = 3 * 64 + 2, sitting in cell
column 2 (pos.x = 512 = 2 * 256 world units), row 3 (pos.z = 768). -/
def gridFeature : Feature :=
  { fadeFeature with pos := ⟨512, 0, 768⟩, drawQuad := 194 }

/-- A 64x64 state whose only occupied bin is (quad 194, model type 0),
holding feature 7. -/
def gridState : DrawerState :=
  { initDrawerState with
    features := fun _ => gridFeature
    cells := fun q mt => if q = 194 ∧ mt = 0 then [7] else [] }

/-- gridState with feature 7 also on the live list. -/
def liveState : DrawerState := { gridState with unsorted := [7] }

/-- A 1x1 state whose only bin (quad 0, model type 0) holds feature 0. -/
def oneCellState : DrawerState :=
  { initDrawerState with
    drawQuadsX := 1
    drawQuadsY := 1
    cells := fun q mt => if q = 0 ∧ mt = 0 then [0] else [] }

/-- A non-fading feature carrying the shadow flag. -/
def shadowFlagFeature : Feature := { solidFeature with drawFlag := 3 }

/-- oneCellState with its cell stamped as visited in frame 1 and feature 0
carrying the shadow flag. -/
def shadowFlagState : DrawerState :=
  { oneCellState with features := fun _ => shadowFlagFeature, lastDrawFrame := fun _ => 1 }

/-- SetDrawAlphaValue with a null camera only resets drawAlpha to 0. -/
theorem setDrawAlphaValue_none (f : Feature) (dd b e : ℚ) :
    setDrawAlphaValue f none dd b e = ({ f with drawAlpha := 0 }, false) := rfl

/-- SetDrawAlphaValue for a non-fading feature yields alpha 1 and true. -/
theorem setDrawAlphaValue_not_fade (f : Feature) (c : Camera) (dd b e : ℚ)
    (hfade : f.alphaFade = false) :
    setDrawAlphaValue f (some c) dd b e = ({ f with drawAlpha := 1 }, true) := by
  simp only [setDrawAlphaValue, hfade, if_pos]

/-- Evaluation of SetDrawAlphaValue for a fade-capable feature: the result
is selected by the squared distance d against farLength and the clamped
fade window (B, E). -/
theorem setDrawAlphaValue_fade_eq (f : Feature) (c : Camera) (dd bMin bMax B E d : ℚ)
    (hfade : f.alphaFade = true)
    (hd : d = (Vec3.sub f.pos c.pos).sqLength)
    (hE : E = if f.sqRadius * dd < bMax then f.sqRadius * dd else bMax)
    (hB : B = if f.sqRadius * dd < bMax then f.sqRadius * dd * (bMin / bMax) else bMin) :
    setDrawAlphaValue f (some c) dd bMin bMax =
      if f.sqRadius * dd ≤ d then ({ f with drawAlpha := 0 }, false)
      else if d < B then ({ f with drawAlpha := 1 }, true)
      else if d < E then ({ f with drawAlpha := 1 - (d - B) / (E - B) }, true)
      else ({ f with drawAlpha := 0 }, false) := by
  subst hd hE hB
  simp only [setDrawAlphaValue, hfade]
  norm_num

/-- A shadow-pass classification of a candidate feature yields the shadow
flag (DrawQuad lines 667-670). -/
theorem classifyFeature_shadow (p : QuadDrawerCtx) (f : Feature)
    (hnd : f.noDraw = false) (hvoid : f.inVoid = false)
    (hlos : p.spectatingFullView = true ∨ f.inLos = true)
    (hsh : p.drawShadowPass = true) :
    classifyFeature p f = { f with drawFlag := FD_SHADOW_FLAG } := by
  rcases hlos with h | h <;>
    simp only [classifyFeature, hnd, hvoid, hsh, h, Bool.not_true, Bool.not_false,
      Bool.false_and, Bool.and_false, Bool.and_true, Bool.true_and, Bool.false_eq_true,
      if_false, if_true, ite_false, ite_true]

/-- A non-shadow classification of a candidate feature that passes the
refraction and reflection gates reduces to the SetDrawAlphaValue call and
the alpha-driven flag assignment (DrawQuad lines 672-689). -/
theorem classifyFeature_main (p : QuadDrawerCtx) (f : Feature)
    (hnd : f.noDraw = false) (hvoid : f.inVoid = false)
    (hlos : p.spectatingFullView = true ∨ f.inLos = true)
    (hsh : p.drawShadowPass = false)
    (hrefr : p.drawRefraction = true → f.inWater = true)
    (hrefl : p.drawReflection = true → p.reflectionVisible f.drawMidPos f.drawRadius = true) :
    classifyFeature p f =
      (fun r : Feature × Bool =>
        if r.2 = true then
          { r.1 with drawFlag := r.1.drawFlag
              + FD_OPAQUE_FLAG * (if r.1.drawAlpha = 1 then 1 else 0)
              + FD_ALPHAF_FLAG * (if r.1.drawAlpha < 1 then 1 else 0) }
        else
          { r.1 with drawFlag :=
              FD_FARTEX_FLAG * (if p.drawFarFeatures then 1 else 0)
                * (if f.alphaFade then 0 else 1) })
      (setDrawAlphaValue { f with drawFlag := FD_NODRAW_FLAG } (some p.cam)
        p.unitDrawDistSqr p.sqFadeDistBegin p.sqFadeDistEnd) := by
  have hwater : (p.drawRefraction && !f.inWater) = false := by
    cases hw : p.drawRefraction
    · simp
    · simp [hrefr hw]
  have hvis : (p.drawReflection && !p.reflectionVisible f.drawMidPos f.drawRadius) = false := by
    cases hv : p.drawReflection
    · simp
    · simp [hrefl hv]
  rcases hlos with h | h <;>
    simp only [classifyFeature, hnd, hvoid, hsh, h, hwater, hvis, Bool.not_true,
      Bool.not_false, Bool.false_and, Bool.and_false, Bool.and_true, Bool.true_and,
      Bool.false_eq_true, if_false, if_true, ite_false, ite_true]

/-- C5: a fade-disabled candidate feature (one passing the noDraw, void and
ally-team exclusions, plus the refraction and reflection gates of the pass)
is classified Opaque with alpha 1 in every non-shadow pass, for any camera
and any distance, and Shadow in a shadow-camera pass. -/
theorem fadeDisabled_flag_policy (p : QuadDrawerCtx) (f : Feature)
    (hfade : f.alphaFade = false)
    (hnd : f.noDraw = false) (hvoid : f.inVoid = false)
    (hlos : p.spectatingFullView = true ∨ f.inLos = true)
    (hrefr : p.drawRefraction = true → f.inWater = true)
    (hrefl : p.drawReflection = true → p.reflectionVisible f.drawMidPos f.drawRadius = true) :
    (p.drawShadowPass = true → (classifyFeature p f).drawFlag = FD_SHADOW_FLAG) ∧
    (p.drawShadowPass = false →
      (classifyFeature p f).drawFlag = FD_OPAQUE_FLAG ∧
      (classifyFeature p f).drawAlpha = 1) := by
  constructor
  · intro hsh
    rw [classifyFeature_shadow p f hnd hvoid hlos hsh]
  · intro hsh
    rw [classifyFeature_main p f hnd hvoid hlos hsh hrefr hrefl,
        setDrawAlphaValue_not_fade { f with drawFlag := FD_NODRAW_FLAG } p.cam _ _ _ hfade]
    norm_num [FD_OPAQUE_FLAG, FD_ALPHAF_FLAG, FD_NODRAW_FLAG]

/-- C5 witness: solidFeature in the concrete shadow pass and in the concrete
main pass. -/
theorem fadeDisabled_flag_policy_witness :
    (classifyFeature shadowCtx solidFeature).drawFlag = FD_SHADOW_FLAG ∧
    (classifyFeature fadeCtx solidFeature).drawFlag = FD_OPAQUE_FLAG ∧
    (classifyFeature fadeCtx solidFeature).drawAlpha = 1 := by
  have h1 := (fadeDisabled_flag_policy shadowCtx solidFeature rfl rfl rfl
    (Or.inr rfl) (fun _ => rfl) (fun _ => rfl)).1 rfl
  have h2 := (fadeDisabled_flag_policy fadeCtx solidFeature rfl rfl rfl
    (Or.inr rfl) (fun _ => rfl) (fun _ => rfl)).2 rfl
  exact ⟨h1, h2.1, h2.2⟩

/-- C2 (amended): a fade-capable candidate feature at squared camera
distance at least farLength in a non-shadow pass is classified NoDraw,
never Opaque or AlphaFading, and never FarImpostor either, regardless of
whether far-rendering is enabled for the pass: DrawQuad restricts the
fartex flag to non-fading features. -/
theorem farDistance_fading_noDraw (p : QuadDrawerCtx) (f : Feature)
    (hfade : f.alphaFade = true)
    (hnd : f.noDraw = false) (hvoid : f.inVoid = false)
    (hlos : p.spectatingFullView = true ∨ f.inLos = true)
    (hsh : p.drawShadowPass = false)
    (hrefr : p.drawRefraction = true → f.inWater = true)
    (hrefl : p.drawReflection = true → p.reflectionVisible f.drawMidPos f.drawRadius = true)
    (hfar : f.sqRadius * p.unitDrawDistSqr ≤ (Vec3.sub f.pos p.cam.pos).sqLength) :
    (classifyFeature p f).drawFlag = FD_NODRAW_FLAG := by
  rw [classifyFeature_main p f hnd hvoid hlos hsh hrefr hrefl,
      setDrawAlphaValue_fade_eq { f with drawFlag := FD_NODRAW_FLAG } p.cam
        p.unitDrawDistSqr p.sqFadeDistBegin p.sqFadeDistEnd _ _ _ hfade rfl rfl rfl,
      if_pos hfar]
  norm_num [hfade, FD_FARTEX_FLAG, FD_NODRAW_FLAG]

/-- C2 witness: fadeFeature at squared distance 100, beyond its farLength
of 98, in the concrete far-rendering main pass. -/
theorem farDistance_fading_noDraw_witness :
    (classifyFeature farCtx fadeFeature).drawFlag = FD_NODRAW_FLAG := by
  exact farDistance_fading_noDraw farCtx fadeFeature rfl rfl rfl (Or.inr rfl) rfl
    (fun _ => rfl) (fun _ => rfl)
    (by norm_num [fadeFeature, farCtx, fadeCtx, Vec3.sub, Vec3.sqLength])

/-- C2 counterexample: the same far fade-capable candidate, with
far-rendering enabled for the pass, is NOT marked FarImpostor (it is
NoDraw), contradicting the claim's FarImpostor case. -/
theorem farDistance_fartex_counterexample :
    farCtx.drawFarFeatures = true ∧ fadeFeature.alphaFade = true ∧
    farCtx.drawShadowPass = false ∧
    fadeFeature.sqRadius * farCtx.unitDrawDistSqr
      ≤ (Vec3.sub fadeFeature.pos farCtx.cam.pos).sqLength ∧
    (classifyFeature farCtx fadeFeature).drawFlag = FD_NODRAW_FLAG ∧
    (classifyFeature farCtx fadeFeature).drawFlag ≠ FD_FARTEX_FLAG := by
  have h := classifyFeature_main farCtx fadeFeature rfl rfl (Or.inr rfl) rfl
    (fun _ => rfl) (fun _ => rfl)
  rw [setDrawAlphaValue_fade_eq { fadeFeature with drawFlag := FD_NODRAW_FLAG } farCtx.cam
        farCtx.unitDrawDistSqr farCtx.sqFadeDistBegin farCtx.sqFadeDistEnd _ _ _ rfl rfl rfl rfl,
      if_pos (by norm_num [fadeFeature, farCtx, fadeCtx, Vec3.sub, Vec3.sqLength])] at h
  rw [h]
  norm_num [fadeFeature, farCtx, fadeCtx, Vec3.sub, Vec3.sqLength,
    FD_NODRAW_FLAG, FD_FARTEX_FLAG]

/-- C1 (amended): for a fade-capable candidate feature with d < farLength,
classification clamps the fade window exactly as the claim states (when
farLength < fadeEnd, fadeEnd is replaced by farLength and fadeBegin is
rescaled proportionally); below the clamped window start both alpha = 1 and
the Opaque flag result, inside the window alpha is the interpolated value
and the flag is AlphaFading precisely when d is strictly past the window
start — at d = fadeBegin exactly, the computed alpha is 1 and the flag is
Opaque, not AlphaFading; at the midpoint of the window alpha is 1/2 with
the AlphaFading flag. -/
theorem fadeWindow_classification (p : QuadDrawerCtx) (f : Feature) (farL B E d : ℚ)
    (hfade : f.alphaFade = true)
    (hnd : f.noDraw = false) (hvoid : f.inVoid = false)
    (hlos : p.spectatingFullView = true ∨ f.inLos = true)
    (hsh : p.drawShadowPass = false)
    (hrefr : p.drawRefraction = true → f.inWater = true)
    (hrefl : p.drawReflection = true → p.reflectionVisible f.drawMidPos f.drawRadius = true)
    (hfarL : farL = f.sqRadius * p.unitDrawDistSqr)
    (hd : d = (Vec3.sub f.pos p.cam.pos).sqLength)
    (hE : E = if farL < p.sqFadeDistEnd then farL else p.sqFadeDistEnd)
    (hB : B = if farL < p.sqFadeDistEnd then farL * (p.sqFadeDistBegin / p.sqFadeDistEnd)
          else p.sqFadeDistBegin)
    (hdfar : d < farL) :
    (d < B → (classifyFeature p f).drawAlpha = 1 ∧
      (classifyFeature p f).drawFlag = FD_OPAQUE_FLAG) ∧
    (B ≤ d → d < E →
      (classifyFeature p f).drawAlpha = 1 - (d - B) / (E - B) ∧
      (classifyFeature p f).drawFlag = if B < d then FD_ALPHAF_FLAG else FD_OPAQUE_FLAG) ∧
    (B < E → d = (B + E) / 2 →
      (classifyFeature p f).drawAlpha = 1 / 2 ∧
      (classifyFeature p f).drawFlag = FD_ALPHAF_FLAG) := by
  subst hfarL
  rw [classifyFeature_main p f hnd hvoid hlos hsh hrefr hrefl,
      setDrawAlphaValue_fade_eq { f with drawFlag := FD_NODRAW_FLAG } p.cam
        p.unitDrawDistSqr p.sqFadeDistBegin p.sqFadeDistEnd B E d hfade hd hE hB,
      if_neg (not_le.mpr hdfar)]
  refine ⟨?_, ?_, ?_⟩
  · intro h1
    rw [if_pos h1]
    norm_num [FD_OPAQUE_FLAG, FD_ALPHAF_FLAG, FD_NODRAW_FLAG]
  · intro hBd hdE
    rw [if_neg (not_lt.mpr hBd), if_pos hdE]
    have hBE : B < E := lt_of_le_of_lt hBd hdE
    by_cases hBd' : B < d
    · have hfrac : 0 < (d - B) / (E - B) := div_pos (by linarith) (by linarith)
      have halpha : 1 - (d - B) / (E - B) < 1 := by linarith
      have hne : ¬(1 - (d - B) / (E - B) = (1 : ℚ)) := by
        intro hh
        rw [sub_eq_self] at hh
        linarith [hh]
      rw [if_pos hBd']
      constructor
      · simp
      · simp [hne, halpha, FD_OPAQUE_FLAG, FD_ALPHAF_FLAG, FD_NODRAW_FLAG]
    · have hdB : d = B := le_antisymm (not_lt.mp hBd') hBd
      rw [if_neg hBd']
      constructor
      · simp [hdB]
      · norm_num [hdB, FD_OPAQUE_FLAG, FD_ALPHAF_FLAG, FD_NODRAW_FLAG]
  · intro hBE hmid
    have hBd : B ≤ d := by rw [hmid]; linarith
    have hdE : d < E := by rw [hmid]; linarith
    rw [if_neg (not_lt.mpr hBd), if_pos hdE]
    have ht : (d - B) / (E - B) = 1 / 2 := by
      rw [hmid, div_eq_div_iff (by linarith) (by norm_num)]
      ring
    rw [ht]
    norm_num [FD_OPAQUE_FLAG, FD_ALPHAF_FLAG, FD_NODRAW_FLAG]

/-- C1 counterexample: fadeFeature at squared distance exactly fadeBegin = 1
(window 1..49, farLength 98, no clamping), inside the claim's else-if branch
since fadeBegin ≤ d < fadeEnd, is classified Opaque with alpha 1 — not
AlphaFading as the claim's branch states. -/
theorem fadeWindow_boundary_counterexample :
    fadeFeature.alphaFade = true ∧
    fadeCtx.sqFadeDistEnd ≤ fadeFeature.sqRadius * fadeCtx.unitDrawDistSqr ∧
    (Vec3.sub fadeFeature.pos fadeCtx.cam.pos).sqLength = fadeCtx.sqFadeDistBegin ∧
    fadeCtx.sqFadeDistBegin < fadeCtx.sqFadeDistEnd ∧
    (Vec3.sub fadeFeature.pos fadeCtx.cam.pos).sqLength
      < fadeFeature.sqRadius * fadeCtx.unitDrawDistSqr ∧
    (classifyFeature fadeCtx fadeFeature).drawAlpha = 1 ∧
    (classifyFeature fadeCtx fadeFeature).drawFlag = FD_OPAQUE_FLAG ∧
    (classifyFeature fadeCtx fadeFeature).drawFlag ≠ FD_ALPHAF_FLAG := by
  have h := classifyFeature_main fadeCtx fadeFeature rfl rfl (Or.inr rfl) rfl
    (fun _ => rfl) (fun _ => rfl)
  rw [setDrawAlphaValue_fade_eq { fadeFeature with drawFlag := FD_NODRAW_FLAG } fadeCtx.cam
      fadeCtx.unitDrawDistSqr fadeCtx.sqFadeDistBegin fadeCtx.sqFadeDistEnd _ _ _
      rfl rfl rfl rfl] at h
  rw [h]
  norm_num [fadeFeature, fadeCtx, Vec3.sub, Vec3.sqLength,
    FD_NODRAW_FLAG, FD_OPAQUE_FLAG, FD_ALPHAF_FLAG]

/-- C1 witness: fadeFeature at squared distance 25, the midpoint of the
window 1..49, gets alpha 1/2 and the AlphaFading flag. -/
theorem fadeWindow_classification_witness :
    (classifyFeature midCtx fadeFeature).drawAlpha = 1 / 2 ∧
    (classifyFeature midCtx fadeFeature).drawFlag = FD_ALPHAF_FLAG := by
  exact (fadeWindow_classification midCtx fadeFeature 98 1 49 25 rfl rfl rfl (Or.inr rfl)
    rfl (fun _ => rfl) (fun _ => rfl)
    (by norm_num [fadeFeature, midCtx, fadeCtx])
    (by norm_num [fadeFeature, midCtx, fadeCtx, Vec3.sub, Vec3.sqLength])
    (by norm_num [midCtx, fadeCtx]) (by norm_num [midCtx, fadeCtx])
    (by norm_num)).2.2 (by norm_num) (by norm_num)

/-- C6: for a fade-capable feature, the alpha SetDrawAlphaValue computes is
non-increasing in the squared camera distance over the clamped fade window
[B, E]; at d = B it is exactly 1 (an alpha draw), and at d = E the call
returns false — the feature falls through to the impostor/no-draw branch
rather than receiving an alpha draw. -/
theorem alpha_monotone_in_distance (f : Feature) (c1 c2 : Camera)
    (dd bMin bMax B E d1 d2 : ℚ)
    (hfade : f.alphaFade = true)
    (hfarpos : 0 < f.sqRadius * dd)
    (hb0 : 0 ≤ bMin) (hbe : bMin < bMax)
    (hd1 : d1 = (Vec3.sub f.pos c1.pos).sqLength)
    (hd2 : d2 = (Vec3.sub f.pos c2.pos).sqLength)
    (hE : E = if f.sqRadius * dd < bMax then f.sqRadius * dd else bMax)
    (hB : B = if f.sqRadius * dd < bMax then f.sqRadius * dd * (bMin / bMax) else bMin) :
    (B ≤ d1 → d1 ≤ d2 → d2 ≤ E →
      (setDrawAlphaValue f (some c2) dd bMin bMax).1.drawAlpha
        ≤ (setDrawAlphaValue f (some c1) dd bMin bMax).1.drawAlpha) ∧
    (d1 = B → (setDrawAlphaValue f (some c1) dd bMin bMax).1.drawAlpha = 1 ∧
      (setDrawAlphaValue f (some c1) dd bMin bMax).2 = true) ∧
    (d1 = E → (setDrawAlphaValue f (some c1) dd bMin bMax).2 = false) := by
  have hbmax : (0 : ℚ) < bMax := lt_of_le_of_lt hb0 hbe
  have hBE : B < E := by
    rw [hB, hE]
    split_ifs with hc
    · exact mul_lt_of_lt_one_right hfarpos ((div_lt_one hbmax).mpr hbe)
    · exact hbe
  have hEfar : E ≤ f.sqRadius * dd := by
    rw [hE]
    split_ifs with hc
    · exact le_refl _
    · exact le_of_not_lt hc
  rw [setDrawAlphaValue_fade_eq f c1 dd bMin bMax B E d1 hfade hd1 hE hB,
      setDrawAlphaValue_fade_eq f c2 dd bMin bMax B E d2 hfade hd2 hE hB]
  have hend : ∀ x : ℚ, x = E →
      (if f.sqRadius * dd ≤ x then (({ f with drawAlpha := 0 } : Feature), false)
       else if x < B then ({ f with drawAlpha := 1 }, true)
       else if x < E then ({ f with drawAlpha := 1 - (x - B) / (E - B) }, true)
       else ({ f with drawAlpha := 0 }, false))
        = ({ f with drawAlpha := 0 }, false) := by
    intro x hx
    by_cases hfl : f.sqRadius * dd ≤ x
    · rw [if_pos hfl]
    · rw [if_neg hfl, if_neg (not_lt.mpr (hx ▸ le_of_lt hBE)),
        if_neg (not_lt.mpr (le_of_eq hx.symm))]
  refine ⟨?_, ?_, ?_⟩
  · intro h1 h12 h2E
    by_cases h2lt : d2 < E
    · have h2far : ¬(f.sqRadius * dd ≤ d2) := not_le.mpr (lt_of_lt_of_le h2lt hEfar)
      have h1far : ¬(f.sqRadius * dd ≤ d1) :=
        not_le.mpr (lt_of_le_of_lt h12 (lt_of_lt_of_le h2lt hEfar))
      rw [if_neg h2far, if_neg h1far, if_neg (not_lt.mpr (le_trans h1 h12)),
        if_neg (not_lt.mpr h1), if_pos h2lt, if_pos (lt_of_le_of_lt h12 h2lt)]
      have : (d1 - B) / (E - B) ≤ (d2 - B) / (E - B) :=
        (div_le_div_iff_of_pos_right (by linarith)).mpr (by linarith)
      simp only [Prod.fst]
      show (1 : ℚ) - (d2 - B) / (E - B) ≤ 1 - (d1 - B) / (E - B)
      linarith
    · have h2eq : d2 = E := le_antisymm h2E (not_lt.mp h2lt)
      rw [hend d2 h2eq]
      by_cases h1lt : d1 < E
      · have h1far : ¬(f.sqRadius * dd ≤ d1) := not_le.mpr (lt_of_lt_of_le h1lt hEfar)
        rw [if_neg h1far, if_neg (not_lt.mpr h1), if_pos h1lt]
        have hle1 : (d1 - B) / (E - B) ≤ 1 := (div_le_one (by linarith)).mpr (by linarith)
        show (0 : ℚ) ≤ 1 - (d1 - B) / (E - B)
        linarith
      · have h1eq : d1 = E := le_antisymm (le_trans h12 h2E) (not_lt.mp h1lt)
        rw [hend d1 h1eq]
  · intro h1B
    have h1far : ¬(f.sqRadius * dd ≤ d1) :=
      not_le.mpr (lt_of_lt_of_le (h1B ▸ hBE) hEfar)
    rw [if_neg h1far, if_neg (not_lt.mpr (le_of_eq h1B.symm)), if_pos (h1B ▸ hBE)]
    constructor
    · show (1 : ℚ) - (d1 - B) / (E - B) = 1
      rw [h1B, sub_self, zero_div, sub_zero]
    · rfl
  · intro h1E
    rw [hend d1 h1E]

/-- C6 witness: fadeFeature with window 1..49 (farLength 98): alpha at
squared distance 49 is at most alpha at squared distance 1, alpha is 1 at
the window start, and at the window end the call yields false. -/
theorem alpha_monotone_in_distance_witness :
    ((setDrawAlphaValue fadeFeature (some ⟨⟨7, 0, 0⟩, 0⟩) 2 1 49).1.drawAlpha
      ≤ (setDrawAlphaValue fadeFeature (some ⟨⟨1, 0, 0⟩, 0⟩) 2 1 49).1.drawAlpha) ∧
    (setDrawAlphaValue fadeFeature (some ⟨⟨1, 0, 0⟩, 0⟩) 2 1 49).1.drawAlpha = 1 ∧
    (setDrawAlphaValue fadeFeature (some ⟨⟨1, 0, 0⟩, 0⟩) 2 1 49).2 = true ∧
    (setDrawAlphaValue fadeFeature (some ⟨⟨7, 0, 0⟩, 0⟩) 2 1 49).2 = false := by
  have h := alpha_monotone_in_distance fadeFeature ⟨⟨1, 0, 0⟩, 0⟩ ⟨⟨7, 0, 0⟩, 0⟩
    2 1 49 1 49 1 49 rfl (by norm_num [fadeFeature]) (by norm_num) (by norm_num)
    (by norm_num [fadeFeature, Vec3.sub, Vec3.sqLength])
    (by norm_num [fadeFeature, Vec3.sub, Vec3.sqLength])
    (by norm_num [fadeFeature]) (by norm_num [fadeFeature])
  have h2 := alpha_monotone_in_distance fadeFeature ⟨⟨7, 0, 0⟩, 0⟩ ⟨⟨7, 0, 0⟩, 0⟩
    2 1 49 1 49 49 49 rfl (by norm_num [fadeFeature]) (by norm_num) (by norm_num)
    (by norm_num [fadeFeature, Vec3.sub, Vec3.sqLength])
    (by norm_num [fadeFeature, Vec3.sub, Vec3.sqLength])
    (by norm_num [fadeFeature]) (by norm_num [fadeFeature])
  exact ⟨h.1 (by norm_num) (by norm_num) (by norm_num),
    (h.2.1 rfl).1, (h.2.1 rfl).2, h2.2.2 rfl⟩

/-- setFeature leaves the grid untouched. -/
theorem setFeature_cells (st : DrawerState) (i : Nat) (g : Feature) :
    (setFeature st i g).cells = st.cells := rfl

/-- setFeature rewrites exactly one feature record. -/
theorem setFeature_features (st : DrawerState) (i : Nat) (g : Feature) (j : Nat) :
    (setFeature st i g).features j = if j = i then g else st.features j := by
  simp [setFeature, Function.update_apply]

/-- Membership after DelFeature on a duplicate-free bin. -/
theorem mem_eraseCell (cells : Nat → Nat → List Nat) (q0 mt0 i j q mt : Nat)
    (hnd : (cells q mt).Nodup) :
    j ∈ eraseCell cells q0 mt0 i q mt ↔
      j ∈ cells q mt ∧ ¬(j = i ∧ q = q0 ∧ mt = mt0) := by
  unfold eraseCell
  by_cases h : q = q0 ∧ mt = mt0
  · rw [if_pos h, List.Nodup.mem_erase_iff hnd]
    constructor
    · rintro ⟨hne, hm⟩
      exact ⟨hm, fun hc => hne hc.1⟩
    · rintro ⟨hm, hn⟩
      exact ⟨fun hji => hn ⟨hji, h.1, h.2⟩, hm⟩
  · rw [if_neg h]
    constructor
    · intro hm
      exact ⟨hm, fun hc => h ⟨hc.2.1, hc.2.2⟩⟩
    · exact And.left

/-- Membership after AddFeature. -/
theorem mem_consCell (cells : Nat → Nat → List Nat) (q0 mt0 i j q mt : Nat) :
    j ∈ consCell cells q0 mt0 i q mt ↔
      (j = i ∧ q = q0 ∧ mt = mt0) ∨ j ∈ cells q mt := by
  unfold consCell
  by_cases h : q = q0 ∧ mt = mt0
  · rw [if_pos h]
    simp only [List.mem_cons]
    constructor
    · rintro (hji | hm)
      · exact Or.inl ⟨hji, h.1, h.2⟩
      · exact Or.inr hm
    · rintro (⟨hji, _, _⟩ | hm)
      · exact Or.inl hji
      · exact Or.inr hm
  · rw [if_neg h]
    constructor
    · exact Or.inr
    · rintro (⟨_, hq, hmt⟩ | hm)
      · exact absurd ⟨hq, hmt⟩ h
      · exact hm

/-- DelFeature preserves duplicate-freeness. -/
theorem nodup_eraseCell (cells : Nat → Nat → List Nat) (q0 mt0 i : Nat)
    (hnd : ∀ q mt, (cells q mt).Nodup) :
    ∀ q mt, (eraseCell cells q0 mt0 i q mt).Nodup := by
  intro q mt
  unfold eraseCell
  split_ifs
  · exact (hnd q mt).erase i
  · exact hnd q mt

/-- AddFeature of an id absent from the target bin preserves
duplicate-freeness. -/
theorem nodup_consCell (cells : Nat → Nat → List Nat) (q0 mt0 i : Nat)
    (hnd : ∀ q mt, (cells q mt).Nodup) (hni : i ∉ cells q0 mt0) :
    ∀ q mt, (consCell cells q0 mt0 i q mt).Nodup := by
  intro q mt
  unfold consCell
  split_ifs with h
  · refine List.nodup_cons.mpr ⟨?_, hnd q mt⟩
    rw [h.1, h.2]
    exact hni
  · exact hnd q mt

/-- The computed target quad is never negative (both clamps have lower
bound 0). -/
theorem targetDrawQuad_nonneg (qx qy : Nat) (p : Vec3) : 0 ≤ targetDrawQuad qx qy p := by
  unfold targetDrawQuad drawQuadXOf drawQuadYOf clampI
  have h1 : (0 : Int) ≤ max 0 (min (ratTrunc (p.x / SQUARE_SIZE / DRAW_QUAD_SIZE)) ((qx : Int) - 1)) :=
    le_max_left _ _
  have h2 : (0 : Int) ≤ max 0 (min (ratTrunc (p.z / SQUARE_SIZE / DRAW_QUAD_SIZE)) ((qy : Int) - 1)) :=
    le_max_left _ _
  have h3 : (0 : Int) ≤ (qx : Int) := Int.natCast_nonneg qx
  exact add_nonneg (mul_nonneg h2 h3) h1

/-- UpdateDrawQuad restores the grid invariant from a state whose only
possible defect is a stale stored quad at the updated feature itself. -/
theorem gridInv_updateDrawQuad (st : DrawerState) (i : Nat) (h : PreInv st i) :
    GridInv (updateDrawQuad st i) := by
  obtain ⟨hmem, hqt, hnd⟩ := h
  simp only [updateDrawQuad]
  by_cases hlt : (st.features i).drawQuad < -1
  · rw [if_pos hlt]
    refine ⟨hmem, ?_, hnd⟩
    intro j hj
    by_cases hji : j = i
    · subst hji; omega
    · exact hqt j hji hj
  · rw [if_neg hlt]
    by_cases heq : (st.features i).drawQuad
        = targetDrawQuad st.drawQuadsX st.drawQuadsY (st.features i).pos
    · rw [if_pos heq]
      refine ⟨hmem, ?_, hnd⟩
      intro j hj
      by_cases hji : j = i
      · subst hji; exact heq
      · exact hqt j hji hj
    · rw [if_neg heq]
      have hnew0 : 0 ≤ targetDrawQuad st.drawQuadsX st.drawQuadsY (st.features i).pos :=
        targetDrawQuad_nonneg _ _ _
      by_cases hm : (st.features i).hasModel = true
      · rw [if_pos hm]
        by_cases h0 : 0 ≤ (st.features i).drawQuad
        · rw [if_pos h0]
          have hndE := nodup_eraseCell st.cells (st.features i).drawQuad.toNat
            (st.features i).mdlType i hnd
          have hniNew : i ∉ eraseCell st.cells (st.features i).drawQuad.toNat
              (st.features i).mdlType i
              (targetDrawQuad st.drawQuadsX st.drawQuadsY (st.features i).pos).toNat
              (st.features i).mdlType := by
            rw [mem_eraseCell _ _ _ _ _ _ _ (hnd _ _)]
            rintro ⟨hin, -⟩
            have := (hmem i _ _).mp hin
            omega
          refine ⟨?_, ?_, ?_⟩
          · intro j q mt
            simp only [setFeature_features]
            rw [setFeature_cells]
            show j ∈ consCell _ _ _ i q mt ↔ _
            rw [mem_consCell, mem_eraseCell _ _ _ _ _ _ _ (hnd q mt)]
            by_cases hji : j = i
            · rw [if_pos hji]
              constructor
              · rintro (⟨-, hq, hmt⟩ | ⟨hin, hno⟩)
                · refine ⟨hm, hnew0, ?_, hmt⟩
                  dsimp only
                  omega
                · have hc := (hmem j _ _).mp hin
                  rw [hji] at hc
                  exact absurd ⟨hji, by omega, hc.2.2.2⟩ hno
              · rintro ⟨-, -, hq, hmt⟩
                dsimp only at hq
                exact Or.inl ⟨hji, by omega, hmt⟩
            · rw [if_neg hji]
              constructor
              · rintro (⟨hji', -⟩ | ⟨hin, -⟩)
                · exact absurd hji' hji
                · exact (hmem j q mt).mp hin
              · intro hc
                exact Or.inr ⟨(hmem j q mt).mpr hc, fun hx => hji hx.1⟩
          · intro j hj
            rw [setFeature_features] at hj ⊢
            by_cases hji : j = i
            · rw [if_pos hji]
              rfl
            · rw [if_neg hji] at hj ⊢
              exact hqt j hji hj
          · intro q mt
            rw [setFeature_cells]
            exact nodup_consCell _ _ _ i hndE hniNew q mt
        · rw [if_neg h0]
          have hniNew : i ∉ st.cells
              (targetDrawQuad st.drawQuadsX st.drawQuadsY (st.features i).pos).toNat
              (st.features i).mdlType := by
            intro hin
            have := (hmem i _ _).mp hin
            omega
          refine ⟨?_, ?_, ?_⟩
          · intro j q mt
            simp only [setFeature_features]
            rw [setFeature_cells]
            show j ∈ consCell _ _ _ i q mt ↔ _
            rw [mem_consCell]
            by_cases hji : j = i
            · rw [if_pos hji]
              constructor
              · rintro (⟨-, hq, hmt⟩ | hin)
                · refine ⟨hm, hnew0, ?_, hmt⟩
                  dsimp only
                  omega
                · have hc := (hmem j _ _).mp hin
                  rw [hji] at hc
                  omega
              · rintro ⟨-, -, hq, hmt⟩
                dsimp only at hq
                exact Or.inl ⟨hji, by omega, hmt⟩
            · rw [if_neg hji]
              constructor
              · rintro (⟨hji', -⟩ | hin)
                · exact absurd hji' hji
                · exact (hmem j q mt).mp hin
              · intro hc
                exact Or.inr ((hmem j q mt).mpr hc)
          · intro j hj
            rw [setFeature_features] at hj ⊢
            by_cases hji : j = i
            · rw [if_pos hji]
              rfl
            · rw [if_neg hji] at hj ⊢
              exact hqt j hji hj
          · intro q mt
            rw [setFeature_cells]
            exact nodup_consCell _ _ _ i hnd hniNew q mt
      · rw [if_neg hm]
        refine ⟨?_, ?_, ?_⟩
        · intro j q mt
          simp only [setFeature_features]
          rw [setFeature_cells]
          by_cases hji : j = i
          · rw [if_pos hji]
            constructor
            · intro hin
              have hc := (hmem j q mt).mp hin
              rw [hji] at hc
              exact absurd hc.1 hm
            · rintro ⟨hm', -⟩
              exact absurd hm' hm
          · rw [if_neg hji]
            exact hmem j q mt
        · intro j hj
          rw [setFeature_features] at hj ⊢
          by_cases hji : j = i
          · rw [if_pos hji]
            rfl
          · rw [if_neg hji] at hj ⊢
            exact hqt j hji hj
        · intro q mt
          rw [setFeature_cells]
          exact hnd q mt

/-- Reading back the feature just written. -/
theorem setFeature_features_self (st : DrawerState) (i : Nat) (g : Feature) :
    (setFeature st i g).features i = g := by
  simp [setFeature]

/-- Two writes to the same feature collapse to the second. -/
theorem setFeature_setFeature (st : DrawerState) (i : Nat) (g1 g2 : Feature) :
    setFeature (setFeature st i g1) i g2 = setFeature st i g2 := by
  unfold setFeature
  simp [Function.update_idem]

/-- The grid invariant only concerns dims, cells and features. -/
theorem gridInv_congr (st st' : DrawerState) (hc : st'.cells = st.cells)
    (hf : st'.features = st.features) (hx : st'.drawQuadsX = st.drawQuadsX)
    (hy : st'.drawQuadsY = st.drawQuadsY) (h : GridInv st) : GridInv st' := by
  refine ⟨?_, ?_, ?_⟩
  · intro j q mt
    rw [hc, hf]
    exact h.mem_iff j q mt
  · intro j hj
    rw [hf] at hj ⊢
    rw [hx, hy]
    exact h.quad_target j hj
  · intro q mt
    rw [hc]
    exact h.nodup q mt

/-- RenderFeatureCreated on a model-drawtype feature is the quad update of
the reset feature followed by the unsorted append. -/
theorem renderFeatureCreated_eq (st : DrawerState) (i : Nat)
    (hdt : ¬(st.features i).drawTypeModel = false) :
    renderFeatureCreated st i =
      { updateDrawQuad (setFeature st i
          { st.features i with drawAlpha := 0, drawQuad := -1 }) i with
        unsorted := (updateDrawQuad (setFeature st i
          { st.features i with drawAlpha := 0, drawQuad := -1 }) i).unsorted ++ [i] } := by
  unfold renderFeatureCreated
  rw [if_neg hdt]
  dsimp only
  rw [setFeature_features_self, setDrawAlphaValue_none, setFeature_setFeature]

/-- RenderFeatureCreated preserves the grid invariant for a feature that is
not currently registered. -/
theorem gridInv_renderFeatureCreated (st : DrawerState) (i : Nat)
    (hfresh : (st.features i).drawQuad < 0) (h : GridInv st) :
    GridInv (renderFeatureCreated st i) := by
  by_cases hdt : (st.features i).drawTypeModel = false
  · unfold renderFeatureCreated
    rw [if_pos hdt]
    exact h
  · rw [renderFeatureCreated_eq st i hdt]
    refine gridInv_congr (updateDrawQuad (setFeature st i
      { st.features i with drawAlpha := 0, drawQuad := -1 }) i) _ rfl rfl rfl rfl ?_
    apply gridInv_updateDrawQuad
    refine ⟨?_, ?_, ?_⟩
    · intro j q mt
      simp only [setFeature_features, setFeature_cells]
      by_cases hji : j = i
      · rw [if_pos hji]
        constructor
        · intro hin
          have hc := (h.mem_iff j q mt).mp hin
          rw [hji] at hc
          exact absurd hc.2.1 (by omega)
        · rintro ⟨-, h0, -, -⟩
          dsimp only at h0
          omega
      · rw [if_neg hji]
        exact h.mem_iff j q mt
    · intro j hji hj
      rw [setFeature_features] at hj ⊢
      rw [if_neg hji] at hj ⊢
      exact h.quad_target j hj
    · intro q mt
      rw [setFeature_cells]
      exact h.nodup q mt

/-- FeatureMoved preserves the grid invariant. -/
theorem gridInv_featureMoved (st : DrawerState) (i : Nat) (p : Vec3) (h : GridInv st) :
    GridInv (featureMoved st i p) := by
  unfold featureMoved
  apply gridInv_updateDrawQuad
  refine ⟨?_, ?_, ?_⟩
  · intro j q mt
    simp only [setFeature_features, setFeature_cells]
    by_cases hji : j = i
    · rw [if_pos hji]
      subst hji
      exact h.mem_iff j q mt
    · rw [if_neg hji]
      exact h.mem_iff j q mt
  · intro j hji hj
    rw [setFeature_features] at hj ⊢
    rw [if_neg hji] at hj ⊢
    exact h.quad_target j hj
  · intro q mt
    rw [setFeature_cells]
    exact h.nodup q mt

/-- RenderFeatureDestroyed preserves the grid invariant. -/
theorem gridInv_renderFeatureDestroyed (st : DrawerState) (i : Nat) (h : GridInv st) :
    GridInv (renderFeatureDestroyed st i) := by
  obtain ⟨hmem, hqt, hnd⟩ := h
  simp only [renderFeatureDestroyed]
  by_cases hdt : (st.features i).drawTypeModel = true
  · rw [if_pos hdt]
    by_cases hreg : (st.features i).hasModel = true ∧ 0 ≤ (st.features i).drawQuad
    · rw [if_pos hreg]
      refine ⟨?_, ?_, ?_⟩
      · intro j q mt
        simp only [setFeature_features]
        show j ∈ eraseCell _ _ _ i q mt ↔ _
        rw [mem_eraseCell _ _ _ _ _ _ _ (hnd q mt)]
        by_cases hji : j = i
        · rw [if_pos hji]
          constructor
          · rintro ⟨hin, hno⟩
            have hc := (hmem j q mt).mp hin
            rw [hji] at hc
            exact absurd ⟨hji, by omega, hc.2.2.2⟩ hno
          · rintro ⟨-, h0, -, -⟩
            dsimp only at h0
            omega
        · rw [if_neg hji]
          constructor
          · rintro ⟨hin, -⟩
            exact (hmem j q mt).mp hin
          · intro hc
            exact ⟨(hmem j q mt).mpr hc, fun hx => hji hx.1⟩
      · intro j hj
        rw [setFeature_features] at hj ⊢
        by_cases hji : j = i
        · rw [if_pos hji] at hj
          dsimp only at hj
          omega
        · rw [if_neg hji] at hj ⊢
          exact hqt j hj
      · intro q mt
        exact nodup_eraseCell _ _ _ i hnd q mt
    · rw [if_neg hreg]
      exact ⟨hmem, hqt, hnd⟩
  · rw [if_neg hdt]
    by_cases hreg : (st.features i).hasModel = true ∧ 0 ≤ (st.features i).drawQuad
    · rw [if_pos hreg]
      refine ⟨?_, ?_, ?_⟩
      · intro j q mt
        simp only [setFeature_features]
        show j ∈ eraseCell _ _ _ i q mt ↔ _
        rw [mem_eraseCell _ _ _ _ _ _ _ (hnd q mt)]
        by_cases hji : j = i
        · rw [if_pos hji]
          constructor
          · rintro ⟨hin, hno⟩
            have hc := (hmem j q mt).mp hin
            rw [hji] at hc
            exact absurd ⟨hji, by omega, hc.2.2.2⟩ hno
          · rintro ⟨-, h0, -, -⟩
            dsimp only at h0
            omega
        · rw [if_neg hji]
          constructor
          · rintro ⟨hin, -⟩
            exact (hmem j q mt).mp hin
          · intro hc
            exact ⟨(hmem j q mt).mpr hc, fun hx => hji hx.1⟩
      · intro j hj
        rw [setFeature_features] at hj ⊢
        by_cases hji : j = i
        · rw [if_pos hji] at hj
          dsimp only at hj
          omega
        · rw [if_neg hji] at hj ⊢
          exact hqt j hj
      · intro q mt
        exact nodup_eraseCell _ _ _ i hnd q mt
    · rw [if_neg hreg]
      exact ⟨hmem, hqt, hnd⟩

/-- Any finite sequence of lifecycle events preserves the grid invariant. -/
theorem gridInv_steps (st st' : DrawerState) (h : GridInv st)
    (hr : Relation.ReflTransGen LifecycleStep st st') : GridInv st' := by
  induction hr with
  | refl => exact h
  | tail _ hstep ih =>
    cases hstep with
    | created i hfresh => exact gridInv_renderFeatureCreated _ i hfresh ih
    | moved i p => exact gridInv_featureMoved _ i p ih
    | destroyed i => exact gridInv_renderFeatureDestroyed _ i ih

/-- C3: after any finite sequence of creations, moves and destructions
starting from an empty grid, every registered feature (model present,
nonnegative stored quad) sits exactly in the bin of its stored drawQuad for
its model type, and every bin holds only features whose computed target
quad equals that bin's index. -/
theorem grid_membership_invariant (st0 st : DrawerState)
    (hcells : ∀ q mt, st0.cells q mt = [])
    (hquad : ∀ i, (st0.features i).drawQuad < 0)
    (hr : Relation.ReflTransGen LifecycleStep st0 st) :
    (∀ i, (st.features i).hasModel = true → 0 ≤ (st.features i).drawQuad →
      (i ∈ st.cells (st.features i).drawQuad.toNat (st.features i).mdlType ∧
        ∀ q mt, i ∈ st.cells q mt →
          (q : Int) = (st.features i).drawQuad ∧ mt = (st.features i).mdlType)) ∧
    (∀ q mt i, i ∈ st.cells q mt →
      (q : Int) = targetDrawQuad st.drawQuadsX st.drawQuadsY (st.features i).pos) := by
  have h0 : GridInv st0 := by
    refine ⟨?_, ?_, ?_⟩
    · intro j q mt
      rw [hcells q mt]
      simp only [List.not_mem_nil, false_iff]
      rintro ⟨-, hq, -, -⟩
      exact absurd hq (by have := hquad j; omega)
    · intro j hj
      exact absurd hj (by have := hquad j; omega)
    · intro q mt
      rw [hcells q mt]
      exact List.nodup_nil
  have hInv := gridInv_steps st0 st h0 hr
  constructor
  · intro i hm h0i
    constructor
    · exact (hInv.mem_iff i _ _).mpr ⟨hm, h0i, by omega, rfl⟩
    · intro q mt hin
      have hc := (hInv.mem_iff i q mt).mp hin
      exact ⟨hc.2.2.1, hc.2.2.2⟩
  · intro q mt i hin
    have hc := (hInv.mem_iff i q mt).mp hin
    rw [hc.2.2.1]
    exact hInv.quad_target i hc.2.1

/-- C3 witness: the invariant after one creation step from the concrete
empty 64x64 state. -/
theorem grid_membership_invariant_witness :
    (∀ i, ((renderFeatureCreated initDrawerState 0).features i).hasModel = true →
      0 ≤ ((renderFeatureCreated initDrawerState 0).features i).drawQuad →
      (i ∈ (renderFeatureCreated initDrawerState 0).cells
          ((renderFeatureCreated initDrawerState 0).features i).drawQuad.toNat
          ((renderFeatureCreated initDrawerState 0).features i).mdlType ∧
        ∀ q mt, i ∈ (renderFeatureCreated initDrawerState 0).cells q mt →
          (q : Int) = ((renderFeatureCreated initDrawerState 0).features i).drawQuad ∧
          mt = ((renderFeatureCreated initDrawerState 0).features i).mdlType)) ∧
    (∀ q mt i, i ∈ (renderFeatureCreated initDrawerState 0).cells q mt →
      (q : Int) = targetDrawQuad (renderFeatureCreated initDrawerState 0).drawQuadsX
        (renderFeatureCreated initDrawerState 0).drawQuadsY
        ((renderFeatureCreated initDrawerState 0).features i).pos) :=
  grid_membership_invariant initDrawerState _ (fun _ _ => rfl)
    (fun _ => (by decide : (-1 : Int) < 0))
    (Relation.ReflTransGen.single (LifecycleStep.created initDrawerState 0
      (by decide : (-1 : Int) < 0)))

/-- setFeature leaves the grid dims unchanged. -/
theorem setFeature_drawQuadsX (st : DrawerState) (i : Nat) (g : Feature) :
    (setFeature st i g).drawQuadsX = st.drawQuadsX := rfl

/-- setFeature leaves the grid dims unchanged. -/
theorem setFeature_drawQuadsY (st : DrawerState) (i : Nat) (g : Feature) :
    (setFeature st i g).drawQuadsY = st.drawQuadsY := rfl

/-- The C++ int cast (truncation toward zero) and mathematical floor agree
once clamped below at 0: they coincide on nonnegative values and both clamp
to 0 on negative ones. -/
theorem clamp_ratTrunc_eq_clamp_floor (x : ℚ) (hi : Int) :
    clampI (ratTrunc x) 0 hi = clampI ⌊x⌋ 0 hi := by
  by_cases hx : 0 ≤ x
  · have ht : ratTrunc x = ⌊x⌋ := by
      unfold ratTrunc
      rw [Rat.floor_def]
      exact Int.tdiv_eq_ediv (Rat.num_nonneg.mpr hx) (Int.natCast_nonneg _)
    rw [ht]
  · push_neg at hx
    have h1 : ratTrunc x ≤ 0 := by
      unfold ratTrunc
      have hnum : x.num ≤ 0 := Rat.num_nonpos.mpr (le_of_lt hx)
      have hpos := Int.tdiv_nonneg (a := -x.num) (b := (x.den : Int))
        (by omega) (Int.natCast_nonneg _)
      rw [Int.neg_tdiv] at hpos
      omega
    have h2 : ⌊x⌋ ≤ 0 := Int.floor_nonpos (le_of_lt hx)
    unfold clampI
    omega

/-- C4: the spatial-index contract.  The target column is
clamp(floor(x / cellSize), 0, width - 1) with cellSize = SQUARE_SIZE *
DRAW_QUAD_SIZE world units (the code's truncating int cast agrees with
floor after the clamp); relocation is a no-op when the target quad equals
the stored one; and when a move changes the target quad, the feature is
removed from its old bin, inserted into the target bin, and its drawQuad
is updated to the target index. -/
theorem spatialIndex_cell_contract (st : DrawerState) (i : Nat) (x : ℚ) (p : Vec3)
    (hm : (st.features i).hasModel = true)
    (h0 : 0 ≤ (st.features i).drawQuad)
    (hnd : ∀ q mt, (st.cells q mt).Nodup) :
    (drawQuadXOf st.drawQuadsX x
      = clampI ⌊x / (SQUARE_SIZE * DRAW_QUAD_SIZE)⌋ 0 ((st.drawQuadsX : Int) - 1)) ∧
    ((st.features i).drawQuad
        = targetDrawQuad st.drawQuadsX st.drawQuadsY (st.features i).pos →
      updateDrawQuad st i = st) ∧
    ((st.features i).drawQuad ≠ targetDrawQuad st.drawQuadsX st.drawQuadsY p →
      (((featureMoved st i p).features i).drawQuad
          = targetDrawQuad st.drawQuadsX st.drawQuadsY p ∧
        i ∉ (featureMoved st i p).cells
          (st.features i).drawQuad.toNat (st.features i).mdlType ∧
        i ∈ (featureMoved st i p).cells
          (targetDrawQuad st.drawQuadsX st.drawQuadsY p).toNat
          (st.features i).mdlType)) := by
  refine ⟨?_, ?_, ?_⟩
  · unfold drawQuadXOf
    rw [div_div]
    exact clamp_ratTrunc_eq_clamp_floor _ _
  · intro heq
    simp only [updateDrawQuad]
    by_cases hlt : (st.features i).drawQuad < -1
    · rw [if_pos hlt]
    · rw [if_neg hlt, if_pos heq]
  · intro hne
    have hnew0 : 0 ≤ targetDrawQuad st.drawQuadsX st.drawQuadsY p :=
      targetDrawQuad_nonneg _ _ _
    simp only [featureMoved, updateDrawQuad, setFeature_features_self,
      setFeature_drawQuadsX, setFeature_drawQuadsY, setFeature_cells]
    rw [if_neg (by omega : ¬(st.features i).drawQuad < -1), if_neg hne, if_pos hm,
      if_pos h0]
    refine ⟨?_, ?_, ?_⟩
    · rw [setFeature_features_self]
    · rw [setFeature_cells]
      show i ∉ consCell _ _ _ i _ _
      rw [mem_consCell, mem_eraseCell _ _ _ _ _ _ _ (hnd _ _)]
      rintro (⟨-, hq, -⟩ | ⟨-, hno⟩)
      · omega
      · exact hno ⟨rfl, rfl, rfl⟩
    · rw [setFeature_cells]
      show i ∈ consCell _ _ _ i _ _
      rw [mem_consCell]
      exact Or.inl ⟨rfl, rfl, rfl⟩

/-- C4 witness: feature 7 sits in cell (2,3) of the 64-wide grid (quad
index 194, position x = 512, z = 768); moving it to z = 1024 (cell (2,4))
removes it from bin 194, inserts it into bin 258 = 4 * 64 + 2, and updates
its drawQuad from 194 to 258. -/
theorem spatialIndex_cell_contract_witness :
    gridState.drawQuadsX = 64 ∧
    (gridState.features 7).drawQuad = 194 ∧
    targetDrawQuad 64 64 ⟨512, 0, 1024⟩ = 258 ∧
    ((featureMoved gridState 7 ⟨512, 0, 1024⟩).features 7).drawQuad = 258 ∧
    7 ∉ (featureMoved gridState 7 ⟨512, 0, 1024⟩).cells 194 0 ∧
    7 ∈ (featureMoved gridState 7 ⟨512, 0, 1024⟩).cells 258 0 := by
  have htar : targetDrawQuad gridState.drawQuadsX gridState.drawQuadsY
      (⟨512, 0, 1024⟩ : Vec3) = 258 := by
    show targetDrawQuad 64 64 (⟨512, 0, 1024⟩ : Vec3) = 258
    unfold targetDrawQuad drawQuadXOf drawQuadYOf
    have hx : ((⟨512, 0, 1024⟩ : Vec3).x / SQUARE_SIZE / DRAW_QUAD_SIZE) = 2 := by
      norm_num [SQUARE_SIZE, DRAW_QUAD_SIZE]
    have hz : ((⟨512, 0, 1024⟩ : Vec3).z / SQUARE_SIZE / DRAW_QUAD_SIZE) = 4 := by
      norm_num [SQUARE_SIZE, DRAW_QUAD_SIZE]
    rw [hx, hz]
    decide
  have h := spatialIndex_cell_contract gridState 7 0 ⟨512, 0, 1024⟩ rfl
    (by decide) (fun q mt => by by_cases hq : q = 194 ∧ mt = 0 <;>
      simp [gridState, initDrawerState, hq])
  have h3 := h.2.2 (by rw [htar]; decide)
  rw [htar] at h3
  exact ⟨rfl, rfl, htar, h3.1, h3.2.1, h3.2.2⟩

/-- C9 (amended): RenderFeatureDestroyed erases the feature from the
live-object collection (model draw type), removes it from its grid bin and
resets drawQuad to -1 (model present and registered), and logs the
custom-LOD reset — but it makes no ground-decal call; decal detachment
happens only in the drawer's destructor, which detaches the decals of every
feature still live at teardown. -/
theorem destruction_lifecycle_effects (st : DrawerState) (i : Nat)
    (hdt : (st.features i).drawTypeModel = true)
    (hm : (st.features i).hasModel = true)
    (h0 : 0 ≤ (st.features i).drawQuad)
    (hnd : (st.cells (st.features i).drawQuad.toNat (st.features i).mdlType).Nodup) :
    (renderFeatureDestroyed st i).unsorted = st.unsorted.erase i ∧
    ((renderFeatureDestroyed st i).features i).drawQuad = -1 ∧
    i ∉ (renderFeatureDestroyed st i).cells
      (st.features i).drawQuad.toNat (st.features i).mdlType ∧
    (∀ q mt, ¬(q = (st.features i).drawQuad.toNat ∧ mt = (st.features i).mdlType) →
      (renderFeatureDestroyed st i).cells q mt = st.cells q mt) ∧
    (renderFeatureDestroyed st i).lodZeroed = st.lodZeroed ++ [i] ∧
    (renderFeatureDestroyed st i).decalRemoved = st.decalRemoved ∧
    (drawerDtor (renderFeatureDestroyed st i)).decalRemoved
      = st.decalRemoved ++ (renderFeatureDestroyed st i).unsorted := by
  simp only [renderFeatureDestroyed]
  rw [if_pos hdt, if_pos ⟨hm, h0⟩]
  refine ⟨rfl, ?_, ?_, ?_, rfl, rfl, rfl⟩
  · simp only [setFeature_features_self]
  · show i ∉ eraseCell st.cells (st.features i).drawQuad.toNat (st.features i).mdlType i
      (st.features i).drawQuad.toNat (st.features i).mdlType
    rw [mem_eraseCell _ _ _ _ _ _ _ hnd]
    rintro ⟨-, hno⟩
    exact hno ⟨rfl, rfl, rfl⟩
  · intro q mt hq
    show eraseCell st.cells (st.features i).drawQuad.toNat (st.features i).mdlType i q mt
      = st.cells q mt
    unfold eraseCell
    rw [if_neg hq]

/-- C9 counterexample: destroying the live, registered feature 7 leaves the
ground-decal detach log empty — the destruction handler never notifies the
decal service; only the drawer destructor does, for features still live. -/
theorem destruction_no_decal_counterexample :
    liveState.unsorted = [7] ∧
    (renderFeatureDestroyed liveState 7).decalRemoved = [] ∧
    (drawerDtor liveState).decalRemoved = [7] :=
  ⟨rfl, rfl, rfl⟩

/-- C9 witness: the amended destruction effects at the concrete live
state. -/
theorem destruction_lifecycle_effects_witness :
    (renderFeatureDestroyed liveState 7).unsorted = liveState.unsorted.erase 7 ∧
    ((renderFeatureDestroyed liveState 7).features 7).drawQuad = -1 ∧
    7 ∉ (renderFeatureDestroyed liveState 7).cells
      (liveState.features 7).drawQuad.toNat (liveState.features 7).mdlType ∧
    (∀ q mt, ¬(q = (liveState.features 7).drawQuad.toNat
        ∧ mt = (liveState.features 7).mdlType) →
      (renderFeatureDestroyed liveState 7).cells q mt = liveState.cells q mt) ∧
    (renderFeatureDestroyed liveState 7).lodZeroed = liveState.lodZeroed ++ [7] ∧
    (renderFeatureDestroyed liveState 7).decalRemoved = liveState.decalRemoved ∧
    (drawerDtor (renderFeatureDestroyed liveState 7)).decalRemoved
      = liveState.decalRemoved ++ (renderFeatureDestroyed liveState 7).unsorted :=
  destruction_lifecycle_effects liveState 7 rfl rfl (by decide) (by decide)

/-- The per-feature Update body is idempotent: it only rewrites the draw
positions (from the unchanged pos/speed) and zeroes the alpha. -/
theorem updateFeatureFrame_idem (t : ℚ) (f : Feature) :
    updateFeatureFrame t (updateFeatureFrame t f) = updateFeatureFrame t f := rfl

/-- Folding the Update body over a list rewrites exactly the listed
features. -/
theorem updateFeatures_foldl (t : ℚ) (l : List Nat) (s : DrawerState) (j : Nat) :
    ((l.foldl (fun s i => setFeature s i (updateFeatureFrame t (s.features i))) s).features j)
      = if j ∈ l then updateFeatureFrame t (s.features j) else s.features j := by
  induction l generalizing s with
  | nil => simp
  | cons a l ih =>
    rw [List.foldl_cons, ih, setFeature_features]
    by_cases hja : j = a <;> by_cases hjl : j ∈ l <;>
      simp [hja, hjl, List.mem_cons, updateFeatureFrame_idem]

/-- The Update fold touches no state component except features. -/
theorem updateFeatures_foldl_frame (t : ℚ) (l : List Nat) (s : DrawerState) :
    ((l.foldl (fun s i => setFeature s i (updateFeatureFrame t (s.features i))) s).cells
        = s.cells) ∧
    ((l.foldl (fun s i => setFeature s i (updateFeatureFrame t (s.features i))) s).unsorted
        = s.unsorted) ∧
    ((l.foldl (fun s i => setFeature s i (updateFeatureFrame t (s.features i))) s).lastDrawFrame
        = s.lastDrawFrame) := by
  induction l generalizing s with
  | nil => exact ⟨rfl, rfl, rfl⟩
  | cons a l ih =>
    rw [List.foldl_cons]
    exact ih _

/-- C10: the per-frame Update recomputes every live feature's interpolated
draw positions (pos + speed * timeOffset) and resets its drawAlpha to 0 via
the null-camera SetDrawAlphaValue call, while leaving every feature's
drawFlag and drawQuad, the grid bins, and the live list unchanged; features
not on the live list are untouched. -/
theorem update_resets_alpha_only (st : DrawerState) (t : ℚ) :
    (updateFeatures st t).cells = st.cells ∧
    (updateFeatures st t).unsorted = st.unsorted ∧
    (∀ i, ((updateFeatures st t).features i).drawFlag = (st.features i).drawFlag ∧
      ((updateFeatures st t).features i).drawQuad = (st.features i).drawQuad) ∧
    (∀ i, i ∈ st.unsorted →
      ((updateFeatures st t).features i).drawAlpha = 0 ∧
      ((updateFeatures st t).features i).drawPos
        = Vec3.add (st.features i).pos (Vec3.scale t (st.features i).speed) ∧
      ((updateFeatures st t).features i).drawMidPos
        = Vec3.add (st.features i).midPos (Vec3.scale t (st.features i).speed)) ∧
    (∀ i, i ∉ st.unsorted → (updateFeatures st t).features i = st.features i) := by
  have hfr := updateFeatures_foldl_frame t st.unsorted st
  have hfe : ∀ j, (updateFeatures st t).features j
      = if j ∈ st.unsorted then updateFeatureFrame t (st.features j) else st.features j :=
    fun j => updateFeatures_foldl t st.unsorted st j
  refine ⟨hfr.1, hfr.2.1, ?_, ?_, ?_⟩
  · intro i
    rw [hfe i]
    by_cases hi : i ∈ st.unsorted
    · rw [if_pos hi]
      exact ⟨rfl, rfl⟩
    · rw [if_neg hi]
      exact ⟨rfl, rfl⟩
  · intro i hi
    rw [hfe i, if_pos hi]
    exact ⟨rfl, rfl, rfl⟩
  · intro i hi
    rw [hfe i, if_neg hi]

/-- A feature in one of a quad's per-model-type bins is detected by
inQuadB. -/
theorem inQuadB_true_of_mem (st : DrawerState) (q i mt : Nat)
    (hmt : mt < MODELTYPE_OTHER) (hin : i ∈ st.cells q mt) :
    inQuadB st q i = true := by
  unfold inQuadB
  rw [List.any_eq_true]
  refine ⟨mt, List.mem_range.mpr hmt, ?_⟩
  simpa using hin

/-- One classification visit preserves the freshness invariant. -/
theorem visit_fresh_step (frame : Nat) (st1 : DrawerState) (p : QuadDrawerCtx) (q0 : Nat)
    (ih1 : ∀ q, st1.lastDrawFrame q ≤ frame)
    (ih2 : ∀ q mt i, st1.lastDrawFrame q = frame → mt < MODELTYPE_OTHER →
      i ∈ st1.cells q mt → st1.flagFrame i = frame) :
    (∀ q, (drawQuadVisit p frame st1 q0).lastDrawFrame q ≤ frame) ∧
    (∀ q mt i, (drawQuadVisit p frame st1 q0).lastDrawFrame q = frame →
      mt < MODELTYPE_OTHER → i ∈ (drawQuadVisit p frame st1 q0).cells q mt →
      (drawQuadVisit p frame st1 q0).flagFrame i = frame) := by
  refine ⟨?_, ?_⟩
  · intro q
    show Function.update st1.lastDrawFrame q0 frame q ≤ frame
    rw [Function.update_apply]
    by_cases hq : q = q0
    · rw [if_pos hq]
    · rw [if_neg hq]
      exact ih1 q
  · intro q mt i hq hmt hin
    show (if inQuadB st1 q0 i then frame else st1.flagFrame i) = frame
    by_cases hmem : inQuadB st1 q0 i
    · rw [if_pos hmem]
    · rw [if_neg hmem]
      by_cases hqq : q = q0
      · subst hqq
        exact absurd (inQuadB_true_of_mem st1 q i mt hmt hin) hmem
      · have hq' : st1.lastDrawFrame q = frame := by
          rw [show (drawQuadVisit p frame st1 q0).lastDrawFrame
              = Function.update st1.lastDrawFrame q0 frame from rfl,
            Function.update_apply, if_neg hqq] at hq
          exact hq
        exact ih2 q mt i hq' hmt hin

/-- Classification visits of the current frame keep every quad's counter at
most the frame, and every feature of a quad stamped with the current frame
had its drawFlag written (reset and recomputed) this frame. -/
theorem visitSteps_fresh (frame : Nat) (st0 st : DrawerState)
    (h0 : ∀ q, st0.lastDrawFrame q < frame)
    (hr : Relation.ReflTransGen (VisitStep frame) st0 st) :
    (∀ q, st.lastDrawFrame q ≤ frame) ∧
    (∀ q mt i, st.lastDrawFrame q = frame → mt < MODELTYPE_OTHER → i ∈ st.cells q mt →
      st.flagFrame i = frame) := by
  induction hr with
  | refl =>
    refine ⟨fun q => le_of_lt (h0 q), ?_⟩
    intro q mt i hq hmt hin
    exact absurd hq (Nat.ne_of_lt (h0 q))
  | tail _ hstep ih =>
    cases hstep with
    | visit p q0 => exact visit_fresh_step frame _ p q0 ih.1 ih.2

/-- C7: after any sequence of classification visits within the current
frame (starting from a state whose counters all predate it), quad counters
never exceed the frame, and both batchers read no stale flags: every draw
action they emit concerns a feature whose drawFlag was reset and recomputed
by a classification visit of the current frame (the visit that stamped its
cell's counter), as recorded by the flagFrame history variable.  The
batchers themselves skip every cell whose counter is older than the
frame. -/
theorem no_stale_drawFlag_reads (frame : Nat) (st0 st : DrawerState)
    (h0 : ∀ q, st0.lastDrawFrame q < frame)
    (hr : Relation.ReflTransGen (VisitStep frame) st0 st)
    (modelType : Nat) (hmt : modelType < MODELTYPE_OTHER)
    (spectFullView : Bool) (cam : Camera) (dd fdd : ℚ)
    (inView : Vec3 → ℚ → Bool) (luaAccepts : Nat → Bool) :
    (∀ q, st.lastDrawFrame q ≤ frame) ∧
    (∀ a ∈ drawOpaqueFeatures st frame modelType spectFullView cam dd fdd inView luaAccepts,
      st.flagFrame a.featureId = frame) ∧
    (∀ a ∈ drawAlphaFeatures st frame modelType spectFullView cam dd fdd inView luaAccepts,
      st.flagFrame a.featureId = frame) := by
  have hfresh := visitSteps_fresh frame st0 st h0 hr
  refine ⟨hfresh.1, ?_, ?_⟩
  · intro a ha
    simp only [drawOpaqueFeatures, List.mem_flatMap, List.mem_range] at ha
    obtain ⟨q, -, ha⟩ := ha
    by_cases hq : st.lastDrawFrame q < frame
    · rw [if_pos hq] at ha
      exact absurd ha (List.not_mem_nil a)
    · rw [if_neg hq] at ha
      simp only [List.mem_flatMap] at ha
      obtain ⟨i, hi, ha⟩ := ha
      have hfq : st.lastDrawFrame q = frame := le_antisymm (hfresh.1 q) (not_lt.mp hq)
      have hff := hfresh.2 q modelType i hfq hmt hi
      have hai : a.featureId = i := by
        split_ifs at ha
        all_goals first
          | exact absurd ha (List.not_mem_nil a)
          | (rw [List.mem_singleton] at ha; subst ha; rfl)
      rw [hai]
      exact hff
  · intro a ha
    simp only [drawAlphaFeatures, List.mem_flatMap, List.mem_range] at ha
    obtain ⟨q, -, ha⟩ := ha
    by_cases hq : st.lastDrawFrame q < frame
    · rw [if_pos hq] at ha
      exact absurd ha (List.not_mem_nil a)
    · rw [if_neg hq] at ha
      simp only [List.mem_flatMap] at ha
      obtain ⟨i, hi, ha⟩ := ha
      have hfq : st.lastDrawFrame q = frame := le_antisymm (hfresh.1 q) (not_lt.mp hq)
      have hff := hfresh.2 q modelType i hfq hmt hi
      have hai : a.featureId = i := by
        split_ifs at ha
        all_goals first
          | exact absurd ha (List.not_mem_nil a)
          | (rw [List.mem_singleton] at ha; subst ha; rfl)
      rw [hai]
      exact hff

/-- C7 witness: one visit of the single cell of the concrete 1x1 state in
frame 1. -/
theorem no_stale_drawFlag_reads_witness :
    (∀ q, (drawQuadVisit fadeCtx 1 oneCellState 0).lastDrawFrame q ≤ 1) ∧
    (∀ a ∈ drawOpaqueFeatures (drawQuadVisit fadeCtx 1 oneCellState 0) 1 0 false
        ⟨⟨0, 0, 0⟩, 0⟩ 0 0 (fun _ _ => true) (fun _ => false),
      (drawQuadVisit fadeCtx 1 oneCellState 0).flagFrame a.featureId = 1) ∧
    (∀ a ∈ drawAlphaFeatures (drawQuadVisit fadeCtx 1 oneCellState 0) 1 0 false
        ⟨⟨0, 0, 0⟩, 0⟩ 0 0 (fun _ _ => true) (fun _ => false),
      (drawQuadVisit fadeCtx 1 oneCellState 0).flagFrame a.featureId = 1) :=
  no_stale_drawFlag_reads 1 oneCellState _ (fun _ => (by decide : (0 : Nat) < 1))
    (Relation.ReflTransGen.single (VisitStep.visit oneCellState fadeCtx 0))
    0 (by decide) false ⟨⟨0, 0, 0⟩, 0⟩ 0 0 (fun _ _ => true) (fun _ => false)

/-- C8 (amended): with classifier-produced flags (all at most
FD_FARTEX_FLAG), the alpha batcher submits geometry only for features
flagged AlphaFading and never queues impostors; the opaque batcher queues
exactly the FarImpostor-flagged features on the far-texture handler, skips
NoDraw and AlphaFading, and submits geometry for features flagged Opaque or
Shadow — the same switch serves the shadow pass, so a Shadow-flagged
feature is not filtered out of an opaque pass. -/
theorem pass_flag_filtering (st : DrawerState) (frame modelType : Nat)
    (spectFullView : Bool) (cam : Camera) (dd fdd : ℚ)
    (inView : Vec3 → ℚ → Bool) (luaAccepts : Nat → Bool)
    (hflag : ∀ j, (st.features j).drawFlag ≤ FD_FARTEX_FLAG) :
    (∀ i, DrawAction.drawGeom i
        ∈ drawAlphaFeatures st frame modelType spectFullView cam dd fdd inView luaAccepts →
      (st.features i).drawFlag = FD_ALPHAF_FLAG) ∧
    (∀ i, DrawAction.queueFar i
        ∉ drawAlphaFeatures st frame modelType spectFullView cam dd fdd inView luaAccepts) ∧
    (∀ i, DrawAction.drawGeom i
        ∈ drawOpaqueFeatures st frame modelType spectFullView cam dd fdd inView luaAccepts →
      (st.features i).drawFlag = FD_OPAQUE_FLAG ∨ (st.features i).drawFlag = FD_SHADOW_FLAG) ∧
    (∀ i, DrawAction.queueFar i
        ∈ drawOpaqueFeatures st frame modelType spectFullView cam dd fdd inView luaAccepts →
      (st.features i).drawFlag = FD_FARTEX_FLAG) := by
  refine ⟨?_, ?_, ?_, ?_⟩
  · intro i ha
    simp only [drawAlphaFeatures, List.mem_flatMap, List.mem_range] at ha
    obtain ⟨q, -, ha⟩ := ha
    split_ifs at ha with hqf
    · exact absurd ha (List.not_mem_nil _)
    · simp only [List.mem_flatMap] at ha
      obtain ⟨j, -, ha⟩ := ha
      have hfj := hflag j
      split_ifs at ha with h1 h2 h3 h4 h5 h6
      all_goals try exact absurd ha (List.not_mem_nil _)
      rw [List.mem_singleton] at ha
      rw [DrawAction.drawGeom.injEq] at ha
      subst ha
      simp only [FD_NODRAW_FLAG, FD_OPAQUE_FLAG, FD_ALPHAF_FLAG, FD_SHADOW_FLAG,
        FD_FARTEX_FLAG] at h1 h2 h3 h4 hfj ⊢
      omega
  · intro i ha
    simp only [drawAlphaFeatures, List.mem_flatMap, List.mem_range] at ha
    obtain ⟨q, -, ha⟩ := ha
    split_ifs at ha with hqf
    · exact absurd ha (List.not_mem_nil _)
    · simp only [List.mem_flatMap] at ha
      obtain ⟨j, -, ha⟩ := ha
      split_ifs at ha
      all_goals try exact absurd ha (List.not_mem_nil _)
      rw [List.mem_singleton] at ha
      exact absurd ha (by simp)
  · intro i ha
    simp only [drawOpaqueFeatures, List.mem_flatMap, List.mem_range] at ha
    obtain ⟨q, -, ha⟩ := ha
    split_ifs at ha with hqf
    · exact absurd ha (List.not_mem_nil _)
    · simp only [List.mem_flatMap] at ha
      obtain ⟨j, -, ha⟩ := ha
      have hfj := hflag j
      split_ifs at ha with h1 h2 h3 h4 h5
      all_goals try exact absurd ha (List.not_mem_nil _)
      · rw [List.mem_singleton] at ha
        exact absurd ha (by simp)
      · rw [List.mem_singleton] at ha
        rw [DrawAction.drawGeom.injEq] at ha
        subst ha
        simp only [FD_NODRAW_FLAG, FD_OPAQUE_FLAG, FD_ALPHAF_FLAG, FD_SHADOW_FLAG,
          FD_FARTEX_FLAG] at h1 h2 h3 hfj ⊢
        omega
  · intro i ha
    simp only [drawOpaqueFeatures, List.mem_flatMap, List.mem_range] at ha
    obtain ⟨q, -, ha⟩ := ha
    split_ifs at ha with hqf
    · exact absurd ha (List.not_mem_nil _)
    · simp only [List.mem_flatMap] at ha
      obtain ⟨j, -, ha⟩ := ha
      split_ifs at ha with h1 h2 h3 h4 h5
      all_goals try exact absurd ha (List.not_mem_nil _)
      · rw [List.mem_singleton] at ha
        rw [DrawAction.queueFar.injEq] at ha
        subst ha
        exact h3
      · rw [List.mem_singleton] at ha
        exact absurd ha (by simp)

/-- C8 counterexample: a Shadow-flagged feature sitting in a current-frame
cell is submitted as geometry by the opaque batcher (an opaque, non-shadow
pass), although its drawFlag is not Opaque — the claim's "submits only
objects flagged Opaque" fails. -/
theorem opaque_pass_shadow_counterexample :
    (shadowFlagState.features 0).drawFlag = FD_SHADOW_FLAG ∧
    FD_SHADOW_FLAG ≠ FD_OPAQUE_FLAG ∧
    DrawAction.drawGeom 0 ∈ drawOpaqueFeatures shadowFlagState 1 0 false
      ⟨⟨0, 0, 0⟩, 0⟩ 0 0 (fun _ _ => true) (fun _ => false) := by
  refine ⟨rfl, by decide, ?_⟩
  decide

/-- C8 witness: the flag filter at the concrete shadow-flagged state. -/
theorem pass_flag_filtering_witness :
    (∀ i, DrawAction.drawGeom i ∈ drawAlphaFeatures shadowFlagState 1 0 false
        ⟨⟨0, 0, 0⟩, 0⟩ 0 0 (fun _ _ => true) (fun _ => false) →
      (shadowFlagState.features i).drawFlag = FD_ALPHAF_FLAG) ∧
    (∀ i, DrawAction.queueFar i ∉ drawAlphaFeatures shadowFlagState 1 0 false
        ⟨⟨0, 0, 0⟩, 0⟩ 0 0 (fun _ _ => true) (fun _ => false)) ∧
    (∀ i, DrawAction.drawGeom i ∈ drawOpaqueFeatures shadowFlagState 1 0 false
        ⟨⟨0, 0, 0⟩, 0⟩ 0 0 (fun _ _ => true) (fun _ => false) →
      (shadowFlagState.features i).drawFlag = FD_OPAQUE_FLAG ∨
        (shadowFlagState.features i).drawFlag = FD_SHADOW_FLAG) ∧
    (∀ i, DrawAction.queueFar i ∈ drawOpaqueFeatures shadowFlagState 1 0 false
        ⟨⟨0, 0, 0⟩, 0⟩ 0 0 (fun _ _ => true) (fun _ => false) →
      (shadowFlagState.features i).drawFlag = FD_FARTEX_FLAG) :=
  pass_flag_filtering shadowFlagState 1 0 false ⟨⟨0, 0, 0⟩, 0⟩ 0 0
    (fun _ _ => true) (fun _ => false) (fun _ => (by decide : (3 : Nat) ≤ 4))
